import Mathlib

/-!
Shallow embedding of `src/shelter/data.py` (shelter-animal feature derivation).

pandas Series of strings are modelled as `List String`; element-wise Series
operations (`.str.lower()`, `.str.contains(...)`, `.str.endswith(...)`,
boolean-mask assignment `s.loc[mask] = v`) act independently on each row, so
each rule is embedded as a per-row function mapped over the list.  Fallible
whole-series operations (`Series.apply` with indexing that can raise
`IndexError`, `Series.astype(float)` which raises `ValueError` on any
unparseable entry) are embedded in `Except Unit`.  Missing numeric values
(`np.nan`) are `none : Option ℚ`; numbers are modelled as rationals, so that
products such as `2 * 365` are exact as in the spec's examples.
-/

/-- Python `pat in s` / pandas `.str.contains(pat)` for the literal
(regex-metacharacter-free) patterns used in the source. -/
def strContains (s pat : String) : Bool :=
  decide (pat.data <:+: s.data)

/-- Python `s.endswith(suf)` / pandas `.str.endswith(suf)` (case sensitive). -/
def strEndsWith (s suf : String) : Bool :=
  suf.data.isSuffixOf s.data

/-- Python `s.lower()` / pandas `.str.lower()` on the ASCII data at hand:
lowercase each character. -/
def strLower (s : String) : String :=
  String.mk (s.data.map Char.toLower)

/-- Helper for `splitWs`: scan the characters, accumulating the current
token reversed. -/
def splitWsAux : List Char → List Char → List String
  | [], acc => if acc.isEmpty then [] else [String.mk acc.reverse]
  | c :: cs, acc =>
      if c.isWhitespace then
        if acc.isEmpty then splitWsAux cs []
        else String.mk acc.reverse :: splitWsAux cs []
      else splitWsAux cs (c :: acc)

/-- Python `s.split()` with no separator: split on whitespace runs,
discarding empty tokens. -/
def splitWs (s : String) : List String :=
  splitWsAux s.data []

/-! ## `get_sex` (data.py lines 128-146)

    sex = pd.Series('unknown', index=sex_upon_outcome.index)
    sex.loc[sex_upon_outcome.str.endswith('Female')] = 'female'
    sex.loc[sex_upon_outcome.str.endswith('Male')] = 'male'

The two masked assignments are element-wise; the `Male` assignment runs second
and overwrites. -/

/-- Per-row computation of `get_sex`. -/
def get_sex_row (s : String) : String :=
  let sex0 := "unknown"
  let sex1 := if strEndsWith s "Female" then "female" else sex0
  if strEndsWith s "Male" then "male" else sex1

/-- `get_sex` on a whole column. -/
def get_sex (sex_upon_outcome : List String) : List String :=
  sex_upon_outcome.map get_sex_row

/-! ## `get_neutered` (data.py lines 149-170)

    neutered = sex_upon_outcome.str.lower()
    neutered.loc[neutered.str.contains('neutered')] = 'fixed'
    neutered.loc[neutered.str.contains('spayed')] = 'fixed'
    neutered.loc[neutered.str.contains('intact')] = 'intact'
    neutered.loc[~neutered.isin(['fixed', 'intact'])] = 'unknown'

Each masked assignment recomputes its mask on the already-mutated series, so
per row the checks chain on the current value. -/

/-- Per-row computation of `get_neutered`. -/
def get_neutered_row (s : String) : String :=
  let n0 := strLower s
  let n1 := if strContains n0 "neutered" then "fixed" else n0
  let n2 := if strContains n1 "spayed" then "fixed" else n1
  let n3 := if strContains n2 "intact" then "intact" else n2
  if n3 = "fixed" ∨ n3 = "intact" then n3 else "unknown"

/-- `get_neutered` on a whole column. -/
def get_neutered (sex_upon_outcome : List String) : List String :=
  sex_upon_outcome.map get_neutered_row

/-! ## `get_hair_type` (data.py lines 173-195)

    hair_type = breed.str.lower()
    valid_hair_types = ['shorthair', 'medium hair', 'longhair']
    for hair in valid_hair_types:
        is_hair_type = hair_type.str.contains(hair)
        hair_type[is_hair_type] = hair
    hair_type[~hair_type.isin(valid_hair_types)] = 'unknown'
-/

/-- Per-row computation of `get_hair_type`. -/
def get_hair_type_row (b : String) : String :=
  let h0 := strLower b
  let h1 := if strContains h0 "shorthair" then "shorthair" else h0
  let h2 := if strContains h1 "medium hair" then "medium hair" else h1
  let h3 := if strContains h2 "longhair" then "longhair" else h2
  if h3 = "shorthair" ∨ h3 = "medium hair" ∨ h3 = "longhair" then h3
  else "unknown"

/-- `get_hair_type` on a whole column. -/
def get_hair_type (breed : List String) : List String :=
  breed.map get_hair_type_row

/-! ## `check_is_dog` (data.py lines 90-108) and `check_has_name` (111-125)

    return animal_type.str.lower() == 'dog'
    return name.str.lower() != 'unknown'
-/

/-- `check_is_dog`: the returned boolean column (the anomaly logging is an
observability side channel and does not affect the value). -/
def check_is_dog (animal_type : List String) : List Bool :=
  animal_type.map (fun t => strLower t = "dog")

/-- The values `check_is_dog` reports to the error log: rows whose
case-folded `animal_type` is neither `"dog"` nor `"cat"`. -/
def check_is_dog_anomalies (animal_type : List String) : List String :=
  animal_type.filter (fun t => ¬ (strLower t = "dog" ∨ strLower t = "cat"))

/-- `check_has_name`: true iff the case-folded name is not `"unknown"`. -/
def check_has_name (name : List String) : List Bool :=
  name.map (fun n => strLower n ≠ "unknown")

/-! ## `convert_camel_case` (data.py lines 35-49)

    s1 = re.sub('(.)([A-Z][a-z]+)', r'\1_\2', name)
    return re.sub('([a-z0-9])([A-Z])', r'\1_\2', s1).lower()

`re.sub` scans left to right, replacing non-overlapping matches and resuming
after the end of each match; an unmatched position is emitted and the scan
advances by one character.  `[a-z]+` is greedy and nothing follows it in the
pattern, so a match of pattern 1 consumes one arbitrary character, one
uppercase letter and the maximal following lowercase run. -/

/-- First substitution: `re.sub('(.)([A-Z][a-z]+)', r'\1_\2', name)`. -/
def sub1 : List Char → List Char
  | [] => []
  | [c] => [c]
  | c :: u :: rest =>
      let run := rest.takeWhile Char.isLower
      let rest2 := rest.dropWhile Char.isLower
      if u.isUpper ∧ run ≠ [] then
        c :: '_' :: u :: (run ++ sub1 rest2)
      else
        c :: sub1 (u :: rest)
termination_by l => l.length
decreasing_by
  · simp only [List.length_cons]
    have h := (List.dropWhile_sublist Char.isLower (l := rest)).length_le
    omega
  · simp only [List.length_cons]
    omega

/-- Second substitution: `re.sub('([a-z0-9])([A-Z])', r'\1_\2', s1)`. -/
def sub2 : List Char → List Char
  | [] => []
  | [c] => [c]
  | a :: b :: rest =>
      if (a.isLower ∨ a.isDigit) ∧ b.isUpper then
        a :: '_' :: b :: sub2 rest
      else
        a :: sub2 (b :: rest)
termination_by l => l.length
decreasing_by
  · simp only [List.length_cons]; omega
  · simp only [List.length_cons]; omega

/-- `convert_camel_case`: both substitutions, then `.lower()`. -/
def convert_camel_case (name : String) : String :=
  String.mk ((sub2 (sub1 name.data)).map Char.toLower)

/-! ## `compute_days_upon_outcome` (data.py lines 198-218)

    split_age = age_upon_outcome.str.split()
    time = split_age.apply(lambda x: x[0] if x[0] != 'Unknown' else np.nan)
    period = split_age.apply(lambda x: x[1] if x[0] != 'Unknown' else None)
    period_mapping = {'year': 365, 'years': 365, 'weeks': 7, 'week': 7,
                      'month': 30, 'months': 30, 'days': 1, 'day': 1}
    days_upon_outcome = time.astype(float) * period.map(period_mapping)

`Series.apply` raises as soon as a row's lambda raises (`IndexError` on a
too-short token list), and `astype(float)` raises `ValueError` if any
non-missing entry fails to parse as a float; both are modelled in
`Except Unit`.  `Series.map` sends missing values and keys absent from the
dict to NaN, and multiplication propagates NaN. -/

/-- Digit run to a natural number (the characters are known to be digits). -/
def digitsToNat (cs : List Char) : Nat :=
  cs.foldl (fun n c => 10 * n + (c.toNat - 48)) 0

/-- Python `float(s)` on the decimal literals relevant here: optional sign,
then digits with at most one dot and at least one digit overall; the value
is exact as a rational.  Anything else (empty string, letters, several
dots) fails. -/
def parseFloat? (s : String) : Option ℚ :=
  let cs0 := s.data
  let neg := cs0.head? = some '-'
  let cs := if cs0.head? = some '-' ∨ cs0.head? = some '+' then cs0.tail else cs0
  let ip := cs.takeWhile (fun c => c ≠ '.')
  let rest := cs.dropWhile (fun c => c ≠ '.')
  let val? : Option ℚ :=
    match rest with
    | [] =>
        if ip ≠ [] ∧ ip.all Char.isDigit then some (digitsToNat ip : ℚ)
        else none
    | _ :: fp =>
        if fp.contains '.' then none
        else if (ip ≠ [] ∨ fp ≠ []) ∧ ip.all Char.isDigit ∧ fp.all Char.isDigit then
          some ((digitsToNat ip : ℚ) + (digitsToNat fp : ℚ) / (10 : ℚ) ^ fp.length)
        else none
  val?.map (fun v => if neg then -v else v)

/-- The dict `period_mapping` of data.py line 215. -/
def period_mapping : String → Option ℚ
  | "year" => some 365
  | "years" => some 365
  | "weeks" => some 7
  | "week" => some 7
  | "month" => some 30
  | "months" => some 30
  | "days" => some 1
  | "day" => some 1
  | _ => none

/-- `Series.apply` with a lambda that may raise: the first raising row aborts
the whole series. -/
def seriesApply (f : α → Except Unit β) : List α → Except Unit (List β)
  | [] => Except.ok []
  | a :: l =>
      match f a with
      | Except.error e => Except.error e
      | Except.ok b =>
          match seriesApply f l with
          | Except.error e => Except.error e
          | Except.ok bs => Except.ok (b :: bs)

/-- Row lambda of the `time` series: `x[0] if x[0] != 'Unknown' else np.nan`
(`x[0]` raises `IndexError` on an empty token list). -/
def timeRow (x : List String) : Except Unit (Option String) :=
  match x.get? 0 with
  | none => Except.error ()
  | some t0 => if t0 = "Unknown" then Except.ok none else Except.ok (some t0)

/-- Row lambda of the `period` series:
`x[1] if x[0] != 'Unknown' else None`; `x[1]` is only evaluated when the
condition holds, and raises `IndexError` when there is no second token. -/
def periodRow (x : List String) : Except Unit (Option String) :=
  match x.get? 0 with
  | none => Except.error ()
  | some t0 =>
      if t0 = "Unknown" then Except.ok none
      else
        match x.get? 1 with
        | none => Except.error ()
        | some t1 => Except.ok (some t1)

/-- One entry of `time.astype(float)`: NaN stays NaN, a string must parse as
a float or the conversion of the whole series raises `ValueError`. -/
def astypeFloatRow (t : Option String) : Except Unit (Option ℚ) :=
  match t with
  | none => Except.ok none
  | some m =>
      match parseFloat? m with
      | none => Except.error ()
      | some q => Except.ok (some q)

/-- Float multiplication with NaN propagation. -/
def mulOpt : Option ℚ → Option ℚ → Option ℚ
  | some x, some y => some (x * y)
  | _, _ => none

/-- `compute_days_upon_outcome` on a whole column, with the source's
evaluation order: `time` first, then `period`, then `astype(float)`. -/
def compute_days_upon_outcome (age_upon_outcome : List String) :
    Except Unit (List (Option ℚ)) :=
  let split_age := age_upon_outcome.map splitWs
  match seriesApply timeRow split_age with
  | Except.error e => Except.error e
  | Except.ok time =>
      match seriesApply periodRow split_age with
      | Except.error e => Except.error e
      | Except.ok period =>
          match seriesApply astypeFloatRow time with
          | Except.error e => Except.error e
          | Except.ok timeF =>
              let periodD := period.map (fun p => p.bind period_mapping)
              Except.ok (List.zipWith mulOpt timeF periodD)

/-- The value `compute_days_upon_outcome` produces for one row when no row of
the column raises. -/
def rowDays (a : String) : Option ℚ :=
  match splitWs a with
  | [] => none
  | m :: rest =>
      if m = "Unknown" then none
      else mulOpt (parseFloat? m) (rest.head?.bind period_mapping)

/-- Rows on which neither lambda raises and `astype(float)` succeeds: the
first token is the literal `"Unknown"`, or it parses as a float and a second
token exists. -/
def rowSafe (a : String) : Bool :=
  match splitWs a with
  | [] => false
  | m :: rest => m = "Unknown" ∨ ((parseFloat? m).isSome ∧ rest ≠ [])

/-! ## `add_features` (data.py lines 52-87)

    df = df.copy()
    df['is_dog'] = check_is_dog(df['animal_type'])
    df['has_name'] = check_has_name(df['name'])
    df['sex'] = get_sex(df['sex_upon_outcome'])
    df['neutered'] = get_neutered(df['sex_upon_outcome'])
    df['hair_type'] = get_hair_type(df['breed'])
    df['days_upon_outcome'] = compute_days_upon_outcome(df['age_upon_outcome'])
    return df

A DataFrame is modelled as an ordered association list of named, typed
columns.  `df[c]` raises `KeyError` on a missing column (and the `.str`
accessor fails on a non-string column); `df[c] = v` replaces an existing
column in place and appends a new one at the end.  `df.copy()` makes the
subsequent assignments invisible to the caller's frame; in the value model it
is the identity. -/

/-- One typed column of a DataFrame. -/
inductive Column where
  | strs (l : List String)
  | bools (l : List Bool)
  | nums (l : List (Option ℚ))
deriving DecidableEq

/-- A DataFrame: ordered named columns. -/
abbrev Frame := List (String × Column)

/-- The ordered column names of a frame. -/
def colNames (df : Frame) : List String :=
  df.map Prod.fst

/-- `df[c]` followed by a `.str` element-wise operation: fails when the
column is missing or not a string column. -/
def getStrCol (df : Frame) (c : String) : Except Unit (List String) :=
  match df.lookup c with
  | some (Column.strs l) => Except.ok l
  | _ => Except.error ()

/-- `df[c] = v`: replace an existing column in place, else append at the
end. -/
def setCol (df : Frame) (c : String) (v : Column) : Frame :=
  if (colNames df).contains c then
    df.map (fun p => if p.1 = c then (c, v) else p)
  else df ++ [(c, v)]

/-- The six derived column names, in assignment order. -/
def derivedNames : List String :=
  ["is_dog", "has_name", "sex", "neutered", "hair_type", "days_upon_outcome"]

/-- `add_features`: sequential column assignments on a copy of the input
frame; any failing column access or raising rule aborts the whole call. -/
def add_features (df : Frame) : Except Unit Frame :=
  match getStrCol df "animal_type" with
  | Except.error e => Except.error e
  | Except.ok animal_type =>
    let df1 := setCol df "is_dog" (Column.bools (check_is_dog animal_type))
    match getStrCol df1 "name" with
    | Except.error e => Except.error e
    | Except.ok name =>
      let df2 := setCol df1 "has_name" (Column.bools (check_has_name name))
      match getStrCol df2 "sex_upon_outcome" with
      | Except.error e => Except.error e
      | Except.ok sexupon1 =>
        let df3 := setCol df2 "sex" (Column.strs (get_sex sexupon1))
        match getStrCol df3 "sex_upon_outcome" with
        | Except.error e => Except.error e
        | Except.ok sexupon2 =>
          let df4 := setCol df3 "neutered" (Column.strs (get_neutered sexupon2))
          match getStrCol df4 "breed" with
          | Except.error e => Except.error e
          | Except.ok breed =>
            let df5 := setCol df4 "hair_type" (Column.strs (get_hair_type breed))
            match getStrCol df5 "age_upon_outcome" with
            | Except.error e => Except.error e
            | Except.ok age =>
              match compute_days_upon_outcome age with
              | Except.error e => Except.error e
              | Except.ok days =>
                Except.ok (setCol df5 "days_upon_outcome" (Column.nums days))

/-! ## Helper lemmas -/

/-- A string ending in `"Female"` (capital F, lowercase remainder) cannot
also end in `"Male"` (capital M): the character four from the end differs. -/
theorem female_not_male (s : String) (h : strEndsWith s "Female" = true) :
    strEndsWith s "Male" = false := by
  by_contra hne
  rw [Bool.not_eq_false] at hne
  unfold strEndsWith at h hne
  rw [List.isSuffixOf_iff_suffix] at h hne
  rcases List.suffix_or_suffix_of_suffix hne h with h1 | h1
  · exact absurd h1 (by decide)
  · exact absurd h1 (by decide)

/-- C3: for every row, the sex rule assigns exactly one of `"female"`,
`"male"`, `"unknown"`: `"female"` iff `sex_upon_outcome` (case sensitively,
as stored) ends with `"Female"`, `"male"` iff it ends with `"Male"` but not
`"Female"`, `"unknown"` otherwise; a value ending in `"Female"` is never
classified as `"male"`.  Concretely, `"Spayed Female"` is female,
`"Neutered Male"` is male, `"Unknown"` is unknown. -/
theorem C3_sex_classification (s : String) :
    (get_sex_row s = "female" ∨ get_sex_row s = "male" ∨
      get_sex_row s = "unknown") ∧
    (get_sex_row s = "female" ↔ strEndsWith s "Female" = true) ∧
    (get_sex_row s = "male" ↔
      (strEndsWith s "Male" = true ∧ strEndsWith s "Female" = false)) ∧
    (get_sex_row s = "unknown" ↔
      (strEndsWith s "Female" = false ∧ strEndsWith s "Male" = false)) ∧
    get_sex ["Spayed Female", "Neutered Male", "Unknown"] =
      ["female", "male", "unknown"] := by
  have hconc : get_sex ["Spayed Female", "Neutered Male", "Unknown"] =
      ["female", "male", "unknown"] := by decide
  have hfm := female_not_male s
  unfold get_sex_row
  cases hF : strEndsWith s "Female" <;> cases hM : strEndsWith s "Male" <;>
    simp_all

/-- C9: for every row, `is_dog` is true iff the case-folded `animal_type`
equals `"dog"`; any other value, including the anomaly `"Bird"`, yields
false. -/
theorem C9_is_dog :
    (∀ (l : List String) (i : Nat) (b : Bool), (check_is_dog l)[i]? = some b →
      (b = true ↔ ∃ t, l[i]? = some t ∧ strLower t = "dog")) ∧
    check_is_dog ["Bird"] = [false] ∧
    check_is_dog_anomalies ["Bird"] = ["Bird"] := by
  refine ⟨?_, by decide, by decide⟩
  intro l i b h
  simp only [check_is_dog, List.getElem?_map] at h
  cases hl : l[i]? with
  | none => simp [hl] at h
  | some t =>
      simp only [hl, Option.map_some', Option.some.injEq] at h
      subst h
      simp [hl]

/-- Witness for C9 at a concrete input: row 1 of `["Bird", "Dog"]` is a
dog. -/
theorem C9_is_dog_witness :
    ((true : Bool) = true ↔
      ∃ t, (["Bird", "Dog"] : List String)[1]? = some t ∧
        strLower t = "dog") :=
  C9_is_dog.1 ["Bird", "Dog"] 1 true (by decide)

/-- C4: for every breed, `hair_type` is the earliest-listed of
`"shorthair"`, `"medium hair"`, `"longhair"` contained in the case-folded
breed, and `"unknown"` when none is contained; a breed containing both
`"shorthair"` and `"longhair"` resolves to `"shorthair"`.  Concretely,
`"Domestic Shorthair Mix"` is shorthair, `"Domestic Longhair"` is longhair,
`"Beagle Mix"` is unknown. -/
theorem C4_hair_type (b : String) :
    (get_hair_type_row b = "shorthair" ↔
      strContains (strLower b) "shorthair" = true) ∧
    (get_hair_type_row b = "medium hair" ↔
      (strContains (strLower b) "medium hair" = true ∧
        strContains (strLower b) "shorthair" = false)) ∧
    (get_hair_type_row b = "longhair" ↔
      (strContains (strLower b) "longhair" = true ∧
        strContains (strLower b) "shorthair" = false ∧
        strContains (strLower b) "medium hair" = false)) ∧
    (get_hair_type_row b = "unknown" ↔
      (strContains (strLower b) "shorthair" = false ∧
        strContains (strLower b) "medium hair" = false ∧
        strContains (strLower b) "longhair" = false)) ∧
    get_hair_type
        ["Domestic Shorthair Mix", "Domestic Longhair", "Beagle Mix",
          "shorthair longhair"] =
      ["shorthair", "longhair", "unknown", "shorthair"] := by
  have hconc : get_hair_type
      ["Domestic Shorthair Mix", "Domestic Longhair", "Beagle Mix",
        "shorthair longhair"] =
      ["shorthair", "longhair", "unknown", "shorthair"] := by decide
  have d1 : strContains "shorthair" "medium hair" = false := by decide
  have d2 : strContains "shorthair" "longhair" = false := by decide
  have d3 : strContains "medium hair" "longhair" = false := by decide
  unfold get_hair_type_row
  cases h1 : strContains (strLower b) "shorthair" with
  | true => simp_all
  | false =>
      have e1 : strLower b ≠ "shorthair" := by
        intro e; rw [e] at h1; exact absurd h1 (by decide)
      cases h2 : strContains (strLower b) "medium hair" with
      | true => simp_all
      | false =>
          have e2 : strLower b ≠ "medium hair" := by
            intro e; rw [e] at h2; exact absurd h2 (by decide)
          cases h3 : strContains (strLower b) "longhair" with
          | true => simp_all
          | false =>
              have e3 : strLower b ≠ "longhair" := by
                intro e; rw [e] at h3; exact absurd h3 (by decide)
              simp_all

/-- C1 counterexample: the input `"Fixed"` case-folds to `"fixed"`, which
contains none of `"neutered"`, `"spayed"`, `"intact"`, yet `get_neutered`
returns `"fixed"` for it, not `"unknown"`: the already-lowercased value
survives the final `isin(['fixed', 'intact'])` default check. -/
theorem C1_counterexample :
    get_neutered ["Fixed"] = ["fixed"] ∧
    strContains (strLower "Fixed") "neutered" = false ∧
    strContains (strLower "Fixed") "spayed" = false ∧
    strContains (strLower "Fixed") "intact" = false ∧
    get_neutered ["Fixed"] ≠ ["unknown"] := by
  refine ⟨by decide, by decide, by decide, by decide, by decide⟩

/-- C1 amended: the neutered classification returns `"unknown"` for every
value whose case-folded form contains none of `"neutered"`, `"spayed"`,
`"intact"` — except when the case-folded value is exactly `"fixed"`, which
is returned as `"fixed"`.  The outputs are mutually exclusive: `"fixed"` iff
the case-folded value contains `"neutered"` or `"spayed"` or equals
`"fixed"`, and `"intact"` iff it contains `"intact"` but neither
`"neutered"` nor `"spayed"`. -/
theorem C1_neutered_amended (s : String) :
    (get_neutered_row s = "fixed" ∨ get_neutered_row s = "intact" ∨
      get_neutered_row s = "unknown") ∧
    (get_neutered_row s = "fixed" ↔
      (strContains (strLower s) "neutered" = true ∨
        strContains (strLower s) "spayed" = true ∨ strLower s = "fixed")) ∧
    (get_neutered_row s = "intact" ↔
      (strContains (strLower s) "intact" = true ∧
        strContains (strLower s) "neutered" = false ∧
        strContains (strLower s) "spayed" = false)) ∧
    (get_neutered_row s = "unknown" ↔
      (strContains (strLower s) "neutered" = false ∧
        strContains (strLower s) "spayed" = false ∧
        strContains (strLower s) "intact" = false ∧
        strLower s ≠ "fixed")) := by
  have d1 : strContains "fixed" "spayed" = false := by decide
  have d2 : strContains "fixed" "intact" = false := by decide
  unfold get_neutered_row
  cases h1 : strContains (strLower s) "neutered" with
  | true => simp_all
  | false =>
      cases h2 : strContains (strLower s) "spayed" with
      | true => simp_all
      | false =>
          cases h3 : strContains (strLower s) "intact" with
          | true =>
              have e3 : strLower s ≠ "fixed" := by
                intro e; rw [e] at h3; exact absurd h3 (by decide)
              simp_all
          | false =>
              have e4 : strLower s ≠ "intact" := by
                intro e; rw [e] at h3; exact absurd h3 (by decide)
              by_cases e5 : strLower s = "fixed"
              · simp_all
              · simp_all

deriving instance DecidableEq for Except

/-- `seriesApply` succeeds and equals the row-wise map when no row raises. -/
theorem seriesApply_ok (f : α → Except Unit β) (g : α → β) :
    ∀ l : List α, (∀ x ∈ l, f x = Except.ok (g x)) →
      seriesApply f l = Except.ok (l.map g) := by
  intro l h
  induction l with
  | nil => rfl
  | cons a t ih =>
      have ha := h a (List.mem_cons_self a t)
      have ht := ih (fun x hx => h x (List.mem_cons_of_mem a hx))
      simp [seriesApply, ha, ht]

/-- `seriesApply` preserves the length on success. -/
theorem seriesApply_length (f : α → Except Unit β) :
    ∀ (l : List α) (bs : List β), seriesApply f l = Except.ok bs →
      bs.length = l.length := by
  intro l
  induction l with
  | nil => intro bs h; simp only [seriesApply] at h; cases h; rfl
  | cons a t ih =>
      intro bs h
      simp only [seriesApply] at h
      cases hfa : f a with
      | error e => rw [hfa] at h; cases h
      | ok b =>
          rw [hfa] at h
          cases hft : seriesApply f t with
          | error e => rw [hft] at h; cases h
          | ok bt => rw [hft] at h; cases h; simp [ih bt hft]

/-- Pointwise `zipWith` over two maps of the same list. -/
theorem zipWith_map_same (l : List α) (f : α → β) (g : α → γ) (h : β → γ → δ) :
    List.zipWith h (l.map f) (l.map g) = l.map (fun x => h (f x) (g x)) := by
  induction l with
  | nil => rfl
  | cons a t ih => simp [ih]

/-- The value the `time` lambda produces on a row where it does not raise. -/
def timeG (x : List String) : Option String :=
  match x with
  | [] => none
  | m :: _ => if m = "Unknown" then none else some m

/-- The value the `period` lambda produces on a row where it does not
raise. -/
def periodG (x : List String) : Option String :=
  match x with
  | [] => none
  | m :: rest => if m = "Unknown" then none else rest.head?

/-- On a safe row the `time` lambda does not raise. -/
theorem timeRow_safe (a : String) (hs : rowSafe a = true) :
    timeRow (splitWs a) = Except.ok (timeG (splitWs a)) := by
  unfold rowSafe at hs
  cases hx : splitWs a with
  | nil => rw [hx] at hs; simp at hs
  | cons m rest =>
      by_cases hm : m = "Unknown" <;> simp [timeRow, timeG, hm]

/-- On a safe row the `period` lambda does not raise. -/
theorem periodRow_safe (a : String) (hs : rowSafe a = true) :
    periodRow (splitWs a) = Except.ok (periodG (splitWs a)) := by
  unfold rowSafe at hs
  cases hx : splitWs a with
  | nil => rw [hx] at hs; simp at hs
  | cons m rest =>
      rw [hx] at hs
      simp only [decide_eq_true_eq] at hs
      by_cases hm : m = "Unknown"
      · simp [periodRow, periodG, hm]
      · have hrest : rest ≠ [] := by
          rcases hs with hs | hs
          · exact absurd hs hm
          · exact hs.2
        cases rest with
        | nil => exact absurd rfl hrest
        | cons t tl => simp [periodRow, periodG, hm]

/-- On a safe row `astype(float)` does not raise. -/
theorem astypeFloatRow_safe (a : String) (hs : rowSafe a = true) :
    astypeFloatRow (timeG (splitWs a)) =
      Except.ok ((timeG (splitWs a)).bind parseFloat?) := by
  unfold rowSafe at hs
  cases hx : splitWs a with
  | nil => rw [hx] at hs; simp at hs
  | cons m rest =>
      rw [hx] at hs
      simp only [decide_eq_true_eq] at hs
      by_cases hm : m = "Unknown"
      · simp [timeG, astypeFloatRow, hm]
      · have hp : (parseFloat? m).isSome := by
          rcases hs with hs | hs
          · exact absurd hs hm
          · exact hs.1
        cases hq : parseFloat? m with
        | none => rw [hq] at hp; simp at hp
        | some q => simp [timeG, astypeFloatRow, hm, hq]

/-- `rowDays` is the row-wise composition of the three stages. -/
theorem rowDays_eq (a : String) :
    rowDays a =
      mulOpt ((timeG (splitWs a)).bind parseFloat?)
        ((periodG (splitWs a)).bind period_mapping) := by
  unfold rowDays
  cases hx : splitWs a with
  | nil => simp [timeG, periodG, mulOpt]
  | cons m rest =>
      by_cases hm : m = "Unknown"
      · simp [timeG, periodG, mulOpt, hm]
      · simp [timeG, periodG, hm]

/-- When every row is safe, `compute_days_upon_outcome` succeeds and equals
the row-wise days computation. -/
theorem compute_days_eq_map (ages : List String)
    (h : ∀ a ∈ ages, rowSafe a = true) :
    compute_days_upon_outcome ages = Except.ok (ages.map rowDays) := by
  simp only [compute_days_upon_outcome]
  have ht : seriesApply timeRow (ages.map splitWs) =
      Except.ok ((ages.map splitWs).map timeG) := by
    apply seriesApply_ok
    intro x hx
    obtain ⟨a, ha, rfl⟩ := List.mem_map.1 hx
    exact timeRow_safe a (h a ha)
  have hp : seriesApply periodRow (ages.map splitWs) =
      Except.ok ((ages.map splitWs).map periodG) := by
    apply seriesApply_ok
    intro x hx
    obtain ⟨a, ha, rfl⟩ := List.mem_map.1 hx
    exact periodRow_safe a (h a ha)
  have hf : seriesApply astypeFloatRow ((ages.map splitWs).map timeG) =
      Except.ok (((ages.map splitWs).map timeG).map
        (fun t => t.bind parseFloat?)) := by
    apply seriesApply_ok
    intro x hx
    obtain ⟨y, hy, rfl⟩ := List.mem_map.1 hx
    obtain ⟨a, ha, rfl⟩ := List.mem_map.1 hy
    exact astypeFloatRow_safe a (h a ha)
  rw [ht]
  simp only [hp]
  rw [hf]
  simp only [List.map_map]
  congr 1
  rw [zipWith_map_same]
  apply List.map_congr_left
  intro a _
  exact (rowDays_eq a).symm

/-- C5: for every value of the form `"<number> <unit>"`, the resulting days
equal the magnitude times the day factor of the unit under the fixed table,
and are missing when the unit is not in the table; the magnitude token
`"Unknown"` also yields a missing value.  Concretely `"2 years"` gives
`730`, `"3 weeks"` gives `21`, `"1 day"` gives `1`, `"5 fortnights"` and
`"Unknown"` give missing. -/
theorem C5_days_upon_outcome :
    (∀ (a m u : String) (q : ℚ), splitWs a = [m, u] →
      parseFloat? m = some q →
      compute_days_upon_outcome [a] =
        Except.ok [(period_mapping u).map (fun d => q * d)]) ∧
    compute_days_upon_outcome ["2 years"] = Except.ok [some 730] ∧
    compute_days_upon_outcome ["3 weeks"] = Except.ok [some 21] ∧
    compute_days_upon_outcome ["1 day"] = Except.ok [some 1] ∧
    compute_days_upon_outcome ["5 fortnights"] = Except.ok [none] ∧
    compute_days_upon_outcome ["Unknown"] = Except.ok [none] := by
  have hgen : ∀ (a m u : String) (q : ℚ), splitWs a = [m, u] →
      parseFloat? m = some q →
      compute_days_upon_outcome [a] =
        Except.ok [(period_mapping u).map (fun d => q * d)] := by
    intro a m u q hsplit hq
    have hmu : m ≠ "Unknown" := by
      intro e
      rw [e] at hq
      have hn : parseFloat? "Unknown" = none := by decide
      rw [hn] at hq
      cases hq
    have hsafe : rowSafe a = true := by
      unfold rowSafe; rw [hsplit]; simp [hq]
    have hall : ∀ x ∈ [a], rowSafe x = true := by
      intro x hx
      rw [List.mem_singleton] at hx
      rw [hx]
      exact hsafe
    rw [compute_days_eq_map [a] hall]
    simp only [List.map_cons, List.map_nil]
    have hr : rowDays a = mulOpt (parseFloat? m) (period_mapping u) := by
      unfold rowDays; rw [hsplit]; simp [hmu]
    rw [hr, hq]
    cases hpm : period_mapping u <;> simp [mulOpt, hpm]
  refine ⟨hgen, ?_, ?_, ?_, by decide, by decide⟩
  · rw [hgen "2 years" "2" "years" 2 (by decide) (by decide)]
    norm_num [period_mapping]
  · rw [hgen "3 weeks" "3" "weeks" 3 (by decide) (by decide)]
    norm_num [period_mapping]
  · rw [hgen "1 day" "1" "day" 1 (by decide) (by decide)]
    norm_num [period_mapping]

/-- Witness for C5 at a concrete input: `"4 days"` gives `4 * 1` days. -/
theorem C5_days_witness :
    compute_days_upon_outcome ["4 days"] =
      Except.ok [some ((4 : ℚ) * 1)] := by
  have h := C5_days_upon_outcome.1 "4 days" "4" "days" 4 (by decide) (by decide)
  simpa [period_mapping] using h

/-- C10: an `age_upon_outcome` value that tokenizes to the single token
`"Unknown"` yields a missing value without error: the guard `x[0] !=
'Unknown'` prevents the (raising) access to the second token, so the whole
computation returns rather than raising. -/
theorem C10_unknown_guard :
    (∀ a : String, splitWs a = ["Unknown"] →
      compute_days_upon_outcome [a] = Except.ok [none]) ∧
    compute_days_upon_outcome ["Unknown"] = Except.ok [none] := by
  have hgen : ∀ a : String, splitWs a = ["Unknown"] →
      compute_days_upon_outcome [a] = Except.ok [none] := by
    intro a hsplit
    have hsafe : rowSafe a = true := by
      unfold rowSafe; rw [hsplit]; simp
    have hall : ∀ x ∈ [a], rowSafe x = true := by
      intro x hx
      rw [List.mem_singleton] at hx
      rw [hx]
      exact hsafe
    rw [compute_days_eq_map [a] hall]
    have hr : rowDays a = none := by
      unfold rowDays; rw [hsplit]; simp
    simp [hr]
  exact ⟨hgen, by decide⟩

/-- Witness for C10 at a concrete input with surrounding whitespace. -/
theorem C10_unknown_guard_witness :
    compute_days_upon_outcome [" Unknown "] = Except.ok [none] :=
  C10_unknown_guard.1 " Unknown " (by decide)

/-- C2 counterexample: a magnitude token that is neither `"Unknown"` nor
parseable as a float (here `"two"`) makes `time.astype(float)` raise, which
aborts the computation for every row: the well-formed row `"2 years"` is
not processed either, contradicting the claim that malformed per-row values
never raise and leave the other rows processed. -/
theorem C2_counterexample :
    splitWs "two years" = ["two", "years"] ∧
    parseFloat? "two" = none ∧
    compute_days_upon_outcome ["two years", "2 years"] =
      Except.error () := by
  refine ⟨by decide, by decide, by decide⟩

/-- C2 amended: rows whose first token is `"Unknown"`, or parses as a float
with a unit token present, never raise: the whole column is computed
row-wise, and a row with an unrecognized unit (outside the table) resolves
to a missing value rather than an error.  (A magnitude token that is
neither `"Unknown"` nor float-parseable does raise and aborts all rows, as
the counterexample shows.) -/
theorem C2_amended (ages : List String)
    (h : ∀ a ∈ ages, rowSafe a = true) :
    compute_days_upon_outcome ages = Except.ok (ages.map rowDays) ∧
    (∀ a m u, splitWs a = [m, u] → period_mapping u = none →
      rowDays a = none) := by
  refine ⟨compute_days_eq_map ages h, ?_⟩
  intro a m u hsplit hpm
  unfold rowDays
  rw [hsplit]
  by_cases hm : m = "Unknown"
  · simp [hm]
  · cases hq : parseFloat? m <;> simp [hm, hq, hpm, mulOpt]

/-- Witness for C2 (amended) at a concrete column: the unrecognized unit
`"fortnights"` yields a missing value while `"3 weeks"` is processed. -/
theorem C2_amended_witness :
    compute_days_upon_outcome ["5 fortnights", "3 weeks"] =
      Except.ok (["5 fortnights", "3 weeks"].map rowDays) :=
  (C2_amended ["5 fortnights", "3 weeks"] (by decide)).1

/-- A lowercase letter is not an uppercase letter. -/
theorem isUpper_false_of_isLower (c : Char) (hl : c.isLower = true) :
    c.isUpper = false := by
  by_contra hb
  rw [Bool.not_eq_false] at hb
  simp only [Char.isLower, Bool.and_eq_true, decide_eq_true_eq, ge_iff_le] at hl
  simp only [Char.isUpper, Bool.and_eq_true, decide_eq_true_eq, ge_iff_le] at hb
  have h1 : 97 ≤ c.toNat := by
    have := hl.1
    rw [UInt32.le_def, BitVec.le_def] at this
    exact this
  have h2 : c.toNat ≤ 90 := by
    have := hb.2
    rw [UInt32.le_def, BitVec.le_def] at this
    exact this
  omega

/-- A digit is not an uppercase letter. -/
theorem isUpper_false_of_isDigit (c : Char) (hd : c.isDigit = true) :
    c.isUpper = false := by
  by_contra hb
  rw [Bool.not_eq_false] at hb
  simp only [Char.isDigit, Bool.and_eq_true, decide_eq_true_eq, ge_iff_le] at hd
  simp only [Char.isUpper, Bool.and_eq_true, decide_eq_true_eq, ge_iff_le] at hb
  have h1 : c.toNat ≤ 57 := by
    have := hd.2
    rw [UInt32.le_def, BitVec.le_def] at this
    exact this
  have h2 : 65 ≤ c.toNat := by
    have := hb.1
    rw [UInt32.le_def, BitVec.le_def] at this
    exact this
  omega

/-- `Char.toLower` fixes every non-uppercase character. -/
theorem toLower_eq_self (c : Char) (h : c.isUpper = false) :
    c.toLower = c := by
  unfold Char.toLower
  have hn : ¬ (c.toNat ≥ 65 ∧ c.toNat ≤ 90) := by
    intro hc
    rw [← Bool.not_eq_true] at h
    apply h
    simp only [Char.isUpper, Bool.and_eq_true, decide_eq_true_eq, ge_iff_le]
    constructor
    · rw [UInt32.le_def, BitVec.le_def]
      exact hc.1
    · rw [UInt32.le_def, BitVec.le_def]
      exact hc.2
  simp [hn]

/-- The first substitution leaves a string without uppercase letters
unchanged. -/
theorem sub1_no_upper :
    ∀ (l : List Char), (∀ c ∈ l, c.isUpper = false) → sub1 l = l := by
  have main : ∀ (n : Nat) (l : List Char), l.length ≤ n →
      (∀ c ∈ l, c.isUpper = false) → sub1 l = l := by
    intro n
    induction n with
    | zero =>
        intro l hl _
        rw [Nat.le_zero] at hl
        rw [List.length_eq_zero] at hl
        rw [hl]
        simp [sub1]
    | succ n ih =>
        intro l hl h
        match l with
        | [] => simp [sub1]
        | [c] => simp [sub1]
        | c :: u :: rest =>
            have hu : u.isUpper = false := h u (by simp)
            rw [sub1]
            simp only [hu, Bool.false_eq_true, false_and, if_neg,
              not_false_eq_true]
            congr 1
            apply ih (u :: rest)
            · simp only [List.length_cons] at hl ⊢
              omega
            · intro x hx
              exact h x (List.mem_cons_of_mem c hx)
  intro l h
  exact main l.length l le_rfl h

/-- The second substitution leaves a string without uppercase letters
unchanged. -/
theorem sub2_no_upper :
    ∀ (l : List Char), (∀ c ∈ l, c.isUpper = false) → sub2 l = l := by
  have main : ∀ (n : Nat) (l : List Char), l.length ≤ n →
      (∀ c ∈ l, c.isUpper = false) → sub2 l = l := by
    intro n
    induction n with
    | zero =>
        intro l hl _
        rw [Nat.le_zero] at hl
        rw [List.length_eq_zero] at hl
        rw [hl]
        simp [sub2]
    | succ n ih =>
        intro l hl h
        match l with
        | [] => simp [sub2]
        | [c] => simp [sub2]
        | a :: b :: rest =>
            have hb : b.isUpper = false := h b (by simp)
            rw [sub2]
            simp only [hb, Bool.false_eq_true, and_false, if_neg,
              not_false_eq_true]
            congr 1
            apply ih (b :: rest)
            · simp only [List.length_cons] at hl ⊢
              omega
            · intro x hx
              exact h x (List.mem_cons_of_mem a hx)
  intro l h
  exact main l.length l le_rfl h

/-- Lowercasing leaves a string without uppercase letters unchanged. -/
theorem map_toLower_id (l : List Char) (h : ∀ c ∈ l, c.isUpper = false) :
    l.map Char.toLower = l := by
  induction l with
  | nil => rfl
  | cons c t ih =>
      rw [List.map_cons, toLower_eq_self c (h c (by simp)),
        ih (fun x hx => h x (List.mem_cons_of_mem c hx))]

/-- C6: the CamelCase→snake_case conversion is the identity on every name
made of lowercase letters, digits and underscores, and splits acronym edge
cases at the upper/lower boundary: `"DateTime"` gives `"date_time"`,
`"AnimalID"` gives `"animal_id"`, and `"SexUponOutcome"` (the result of the
`upon`→`Upon` fix-up) gives `"sex_upon_outcome"`. -/
theorem C6_camel_case :
    (∀ name : String,
      (∀ c ∈ name.data, c.isLower = true ∨ c.isDigit = true ∨ c = '_') →
      convert_camel_case name = name) ∧
    convert_camel_case "DateTime" = "date_time" ∧
    convert_camel_case "AnimalID" = "animal_id" ∧
    convert_camel_case "SexUponOutcome" = "sex_upon_outcome" := by
  refine ⟨?_, by simp [convert_camel_case, sub1, sub2],
    by simp [convert_camel_case, sub1, sub2],
    by simp [convert_camel_case, sub1, sub2]⟩
  intro name h
  have hup : ∀ c ∈ name.data, c.isUpper = false := by
    intro c hc
    rcases h c hc with hl | hd | he
    · exact isUpper_false_of_isLower c hl
    · exact isUpper_false_of_isDigit c hd
    · rw [he]; decide
  unfold convert_camel_case
  rw [sub1_no_upper _ hup, sub2_no_upper _ hup, map_toLower_id _ hup]

/-- Witness for C6 at a concrete already-snake-case name. -/
theorem C6_camel_case_witness :
    convert_camel_case "sex_upon_outcome2" = "sex_upon_outcome2" :=
  C6_camel_case.1 "sex_upon_outcome2" (by decide)

/-- Looking a column up after appending further columns finds the original
one. -/
theorem getStrCol_append_none (df e : Frame) (c : String)
    (h : e.lookup c = none) : getStrCol (df ++ e) c = getStrCol df c := by
  unfold getStrCol
  rw [List.lookup_append, h]
  cases df.lookup c <;> rfl

/-- Assigning a fresh column appends it at the end. -/
theorem setCol_not_mem (df : Frame) (c : String) (v : Column)
    (h : ¬ c ∈ colNames df) : setCol df c v = df ++ [(c, v)] := by
  unfold setCol
  rw [if_neg]
  intro hc
  exact h (by simpa using hc)

/-- A name absent from a frame looks up to nothing. -/
theorem lookup_none_of_not_mem (df : Frame) (c : String)
    (h : ¬ c ∈ colNames df) : df.lookup c = none := by
  rw [List.lookup_eq_none_iff]
  intro p hp
  simp only [bne_iff_ne, ne_eq]
  intro e
  exact h (e ▸ List.mem_map_of_mem Prod.fst hp)

/-- Re-assigning a column to the value every entry of that name already has
leaves the frame unchanged. -/
theorem setCol_self (df : Frame) (c : String) (v : Column)
    (hc : c ∈ colNames df)
    (h : ∀ p ∈ df, p.1 = c → p.2 = v) : setCol df c v = df := by
  unfold setCol
  rw [if_pos (by simpa using hc)]
  have hcong : ∀ p ∈ df, (if p.1 = c then (c, v) else p) = p := by
    intro p hp
    by_cases e : p.1 = c
    · rw [if_pos e]
      obtain ⟨p1, p2⟩ := p
      have h2 : p2 = v := h ⟨p1, p2⟩ hp e
      simp only at e
      rw [e, h2]
    · rw [if_neg e]
  calc df.map (fun p => if p.1 = c then (c, v) else p)
      = df.map id := List.map_congr_left hcong
    _ = df := List.map_id df

/-- Assigning over an appended tail whose sole entry of that name already
has the value leaves the frame unchanged. -/
theorem setCol_append_self (df e : Frame) (c : String) (v : Column)
    (hdf : ¬ c ∈ colNames df) (hc : c ∈ colNames e)
    (he : ∀ p ∈ e, p.1 = c → p.2 = v) :
    setCol (df ++ e) c v = df ++ e := by
  apply setCol_self
  · simp only [colNames, List.map_append, List.mem_append]
    exact Or.inr hc
  · intro p hp hpc
    rcases List.mem_append.1 hp with h1 | h1
    · exact absurd (hpc ▸ List.mem_map_of_mem Prod.fst h1) hdf
    · exact he p h1 hpc

/-- `compute_days_upon_outcome` preserves the row count on success. -/
theorem compute_days_length (g : List String) (d : List (Option ℚ))
    (h : compute_days_upon_outcome g = Except.ok d) :
    d.length = g.length := by
  simp only [compute_days_upon_outcome] at h
  cases ht : seriesApply timeRow (g.map splitWs) with
  | error e => rw [ht] at h; cases h
  | ok time =>
      rw [ht] at h
      dsimp only at h
      cases hp : seriesApply periodRow (g.map splitWs) with
      | error e => rw [hp] at h; cases h
      | ok period =>
          rw [hp] at h
          dsimp only at h
          cases hf : seriesApply astypeFloatRow time with
          | error e => rw [hf] at h; cases h
          | ok timeF =>
              rw [hf] at h
              cases h
              have l1 := seriesApply_length timeRow (g.map splitWs) time ht
              have l2 := seriesApply_length periodRow (g.map splitWs) period hp
              have l3 := seriesApply_length astypeFloatRow time timeF hf
              simp only [List.length_zipWith, List.length_map] at l1 l2 l3 ⊢
              omega

/-- Characterization of a successful `add_features` run on a frame whose
columns do not clash with the derived names: every input column is read
from the input frame, and the output is the input frame with the six
derived columns appended in assignment order. -/
theorem add_features_ok (df out : Frame)
    (hd : ∀ d ∈ derivedNames, ¬ d ∈ colNames df)
    (h : add_features df = Except.ok out) :
    ∃ a n s b g d,
      getStrCol df "animal_type" = Except.ok a ∧
      getStrCol df "name" = Except.ok n ∧
      getStrCol df "sex_upon_outcome" = Except.ok s ∧
      getStrCol df "breed" = Except.ok b ∧
      getStrCol df "age_upon_outcome" = Except.ok g ∧
      compute_days_upon_outcome g = Except.ok d ∧
      out = df ++
        [("is_dog", Column.bools (check_is_dog a)),
          ("has_name", Column.bools (check_has_name n)),
          ("sex", Column.strs (get_sex s)),
          ("neutered", Column.strs (get_neutered s)),
          ("hair_type", Column.strs (get_hair_type b)),
          ("days_upon_outcome", Column.nums d)] := by
  have hd1 := hd "is_dog" (by simp [derivedNames])
  have hd2 := hd "has_name" (by simp [derivedNames])
  have hd3 := hd "sex" (by simp [derivedNames])
  have hd4 := hd "neutered" (by simp [derivedNames])
  have hd5 := hd "hair_type" (by simp [derivedNames])
  have hd6 := hd "days_upon_outcome" (by simp [derivedNames])
  unfold add_features at h
  cases ha : getStrCol df "animal_type" with
  | error e => rw [ha] at h; cases h
  | ok a =>
  rw [ha] at h
  dsimp only at h
  rw [setCol_not_mem df "is_dog" _ hd1] at h
  rw [getStrCol_append_none df _ "name" (by simp [List.lookup])] at h
  cases hn : getStrCol df "name" with
  | error e => rw [hn] at h; cases h
  | ok n =>
  rw [hn] at h
  dsimp only at h
  have hm2 : ¬ "has_name" ∈ colNames (df ++
      [("is_dog", Column.bools (check_is_dog a))]) := by
    simp only [colNames, List.map_append, List.mem_append]
    rintro (hc | hc)
    · exact hd2 hc
    · simp at hc
  rw [setCol_not_mem _ "has_name" _ hm2] at h
  simp only [List.append_assoc, List.singleton_append, List.cons_append, List.nil_append] at h
  rw [getStrCol_append_none df _ "sex_upon_outcome"
    (by simp [List.lookup])] at h
  cases hs : getStrCol df "sex_upon_outcome" with
  | error e => rw [hs] at h; cases h
  | ok s =>
  rw [hs] at h
  dsimp only at h
  have hm3 : ¬ "sex" ∈ colNames (df ++
      [("is_dog", Column.bools (check_is_dog a)),
        ("has_name", Column.bools (check_has_name n))]) := by
    simp only [colNames, List.map_append, List.mem_append]
    rintro (hc | hc)
    · exact hd3 hc
    · simp at hc
  rw [setCol_not_mem _ "sex" _ hm3] at h
  simp only [List.append_assoc, List.singleton_append, List.cons_append, List.nil_append] at h
  rw [getStrCol_append_none df _ "sex_upon_outcome"
    (by simp [List.lookup])] at h
  rw [hs] at h
  dsimp only at h
  have hm4 : ¬ "neutered" ∈ colNames (df ++
      [("is_dog", Column.bools (check_is_dog a)),
        ("has_name", Column.bools (check_has_name n)),
        ("sex", Column.strs (get_sex s))]) := by
    simp only [colNames, List.map_append, List.mem_append]
    rintro (hc | hc)
    · exact hd4 hc
    · simp at hc
  rw [setCol_not_mem _ "neutered" _ hm4] at h
  simp only [List.append_assoc, List.singleton_append, List.cons_append, List.nil_append] at h
  rw [getStrCol_append_none df _ "breed" (by simp [List.lookup])] at h
  cases hb : getStrCol df "breed" with
  | error e => rw [hb] at h; cases h
  | ok b =>
  rw [hb] at h
  dsimp only at h
  have hm5 : ¬ "hair_type" ∈ colNames (df ++
      [("is_dog", Column.bools (check_is_dog a)),
        ("has_name", Column.bools (check_has_name n)),
        ("sex", Column.strs (get_sex s)),
        ("neutered", Column.strs (get_neutered s))]) := by
    simp only [colNames, List.map_append, List.mem_append]
    rintro (hc | hc)
    · exact hd5 hc
    · simp at hc
  rw [setCol_not_mem _ "hair_type" _ hm5] at h
  simp only [List.append_assoc, List.singleton_append, List.cons_append, List.nil_append] at h
  rw [getStrCol_append_none df _ "age_upon_outcome"
    (by simp [List.lookup])] at h
  cases hg : getStrCol df "age_upon_outcome" with
  | error e => rw [hg] at h; cases h
  | ok g =>
  rw [hg] at h
  dsimp only at h
  cases hcd : compute_days_upon_outcome g with
  | error e => rw [hcd] at h; cases h
  | ok d =>
  rw [hcd] at h
  dsimp only at h
  have hm6 : ¬ "days_upon_outcome" ∈ colNames (df ++
      [("is_dog", Column.bools (check_is_dog a)),
        ("has_name", Column.bools (check_has_name n)),
        ("sex", Column.strs (get_sex s)),
        ("neutered", Column.strs (get_neutered s)),
        ("hair_type", Column.strs (get_hair_type b))]) := by
    simp only [colNames, List.map_append, List.mem_append]
    rintro (hc | hc)
    · exact hd6 hc
    · simp at hc
  rw [setCol_not_mem _ "days_upon_outcome" _ hm6] at h
  simp only [List.append_assoc, List.singleton_append, List.cons_append, List.nil_append] at h
  cases h
  exact ⟨a, n, s, b, g, d, rfl, rfl, rfl, rfl, rfl, hcd, by simp⟩

/-- The six derived columns as a frame tail. -/
def sixCols (a n s b : List String) (d : List (Option ℚ)) : Frame :=
  [("is_dog", Column.bools (check_is_dog a)),
    ("has_name", Column.bools (check_has_name n)),
    ("sex", Column.strs (get_sex s)),
    ("neutered", Column.strs (get_neutered s)),
    ("hair_type", Column.strs (get_hair_type b)),
    ("days_upon_outcome", Column.nums d)]

/-- C7: on a conforming frame (no input column named like a derived one),
a successful `add_features` returns a table in which every original column
is looked up unchanged and whose column list is exactly the original
columns followed by the six derived ones.  The input frame itself is left
untouched: the function operates on a copy and only the returned frame
carries the new columns. -/
theorem C7_frame_effect (df out : Frame)
    (hd : ∀ d ∈ derivedNames, ¬ d ∈ colNames df)
    (h : add_features df = Except.ok out) :
    (∀ c ∈ colNames df, out.lookup c = df.lookup c) ∧
    colNames out = colNames df ++ derivedNames := by
  obtain ⟨a, n, s, b, g, d, _, _, _, _, _, _, hout⟩ :=
    add_features_ok df out hd h
  subst hout
  constructor
  · intro c hc
    rw [List.lookup_append]
    obtain ⟨p, hp, he⟩ := List.mem_map.1 hc
    have hsome : (df.lookup c).isSome := by
      rw [List.lookup_isSome_iff]
      exact ⟨p, hp, by simp [he]⟩
    cases hl : df.lookup c with
    | none => rw [hl] at hsome; simp at hsome
    | some v => rfl
  · simp [colNames, derivedNames]

/-- C8: on a conforming frame, a successful `add_features` preserves every
original column (hence row count and row order), each derived column has
exactly one value per row of its source column, and re-running
`add_features` on its own output returns the output unchanged — in
particular all six derived columns are identical after a second
derivation. -/
theorem C8_idempotent (df out : Frame)
    (hd : ∀ d ∈ derivedNames, ¬ d ∈ colNames df)
    (h : add_features df = Except.ok out) :
    add_features out = Except.ok out ∧
    (∀ c ∈ colNames df, out.lookup c = df.lookup c) ∧
    (∃ a n s b g d,
      getStrCol df "animal_type" = Except.ok a ∧
      getStrCol df "name" = Except.ok n ∧
      getStrCol df "sex_upon_outcome" = Except.ok s ∧
      getStrCol df "breed" = Except.ok b ∧
      getStrCol df "age_upon_outcome" = Except.ok g ∧
      compute_days_upon_outcome g = Except.ok d ∧
      out.lookup "is_dog" = some (Column.bools (check_is_dog a)) ∧
      (check_is_dog a).length = a.length ∧
      out.lookup "has_name" = some (Column.bools (check_has_name n)) ∧
      (check_has_name n).length = n.length ∧
      out.lookup "sex" = some (Column.strs (get_sex s)) ∧
      (get_sex s).length = s.length ∧
      out.lookup "neutered" = some (Column.strs (get_neutered s)) ∧
      (get_neutered s).length = s.length ∧
      out.lookup "hair_type" = some (Column.strs (get_hair_type b)) ∧
      (get_hair_type b).length = b.length ∧
      out.lookup "days_upon_outcome" = some (Column.nums d) ∧
      d.length = g.length) := by
  obtain ⟨a, n, s, b, g, d, ha, hn, hs, hb, hg, hcd, hout⟩ :=
    add_features_ok df out hd h
  have hout' : out = df ++ sixCols a n s b d := by rw [hout]; rfl
  have hd1 := hd "is_dog" (by simp [derivedNames])
  have hd2 := hd "has_name" (by simp [derivedNames])
  have hd3 := hd "sex" (by simp [derivedNames])
  have hd4 := hd "neutered" (by simp [derivedNames])
  have hd5 := hd "hair_type" (by simp [derivedNames])
  have hd6 := hd "days_upon_outcome" (by simp [derivedNames])
  have hlookup : ∀ c ∈ colNames df, out.lookup c = df.lookup c := by
    intro c hc
    rw [hout', List.lookup_append]
    obtain ⟨p, hp, he⟩ := List.mem_map.1 hc
    have hsome : (df.lookup c).isSome := by
      rw [List.lookup_isSome_iff]
      exact ⟨p, hp, by simp [he]⟩
    cases hl : df.lookup c with
    | none => rw [hl] at hsome; simp at hsome
    | some v => rfl
  have hidem : add_features out = Except.ok out := by
    rw [hout']
    unfold add_features
    rw [getStrCol_append_none df _ "animal_type"
      (by simp [sixCols, List.lookup]), ha]
    dsimp only
    rw [setCol_append_self df _ "is_dog" _ hd1 (by simp [sixCols, colNames]) ?h1]
    case h1 =>
      intro p hp e
      simp only [sixCols, List.mem_cons, List.mem_singleton,
        List.not_mem_nil, or_false] at hp
      rcases hp with rfl | rfl | rfl | rfl | rfl | rfl <;> simp_all
    rw [getStrCol_append_none df _ "name"
      (by simp [sixCols, List.lookup]), hn]
    dsimp only
    rw [setCol_append_self df _ "has_name" _ hd2
      (by simp [sixCols, colNames]) ?h2]
    case h2 =>
      intro p hp e
      simp only [sixCols, List.mem_cons, List.mem_singleton,
        List.not_mem_nil, or_false] at hp
      rcases hp with rfl | rfl | rfl | rfl | rfl | rfl <;> simp_all
    rw [getStrCol_append_none df _ "sex_upon_outcome"
      (by simp [sixCols, List.lookup]), hs]
    dsimp only
    rw [setCol_append_self df _ "sex" _ hd3 (by simp [sixCols, colNames]) ?h3]
    case h3 =>
      intro p hp e
      simp only [sixCols, List.mem_cons, List.mem_singleton,
        List.not_mem_nil, or_false] at hp
      rcases hp with rfl | rfl | rfl | rfl | rfl | rfl <;> simp_all
    rw [getStrCol_append_none df _ "sex_upon_outcome"
      (by simp [sixCols, List.lookup]), hs]
    dsimp only
    rw [setCol_append_self df _ "neutered" _ hd4
      (by simp [sixCols, colNames]) ?h4]
    case h4 =>
      intro p hp e
      simp only [sixCols, List.mem_cons, List.mem_singleton,
        List.not_mem_nil, or_false] at hp
      rcases hp with rfl | rfl | rfl | rfl | rfl | rfl <;> simp_all
    rw [getStrCol_append_none df _ "breed"
      (by simp [sixCols, List.lookup]), hb]
    dsimp only
    rw [setCol_append_self df _ "hair_type" _ hd5
      (by simp [sixCols, colNames]) ?h5]
    case h5 =>
      intro p hp e
      simp only [sixCols, List.mem_cons, List.mem_singleton,
        List.not_mem_nil, or_false] at hp
      rcases hp with rfl | rfl | rfl | rfl | rfl | rfl <;> simp_all
    rw [getStrCol_append_none df _ "age_upon_outcome"
      (by simp [sixCols, List.lookup]), hg]
    dsimp only
    rw [hcd]
    dsimp only
    rw [setCol_append_self df _ "days_upon_outcome" _ hd6
      (by simp [sixCols, colNames]) ?h6]
    case h6 =>
      intro p hp e
      simp only [sixCols, List.mem_cons, List.mem_singleton,
        List.not_mem_nil, or_false] at hp
      rcases hp with rfl | rfl | rfl | rfl | rfl | rfl <;> simp_all
  have hfind : ∀ (c : String) (v : Column),
      (sixCols a n s b d).lookup c = some v → out.lookup c = some v := by
    intro c v hv
    rw [hout', List.lookup_append,
      lookup_none_of_not_mem df c ?hc, hv]
    · rfl
    case hc =>
      intro hcdf
      have hcmem : c ∈ derivedNames := by
        have := List.lookup_isSome_iff.1 (by rw [hv]; rfl)
        obtain ⟨p, hp, he⟩ := this
        simp only [sixCols, List.mem_cons, List.mem_singleton,
          List.not_mem_nil, or_false] at hp
        simp only [beq_iff_eq] at he
        rcases hp with rfl | rfl | rfl | rfl | rfl | rfl <;>
          simp [he, derivedNames]
      exact hd c hcmem hcdf
  refine ⟨hidem, hlookup, a, n, s, b, g, d, ha, hn, hs, hb, hg, hcd,
    hfind "is_dog" _ (by simp [sixCols, List.lookup]),
    by simp [check_is_dog],
    hfind "has_name" _ (by simp [sixCols, List.lookup]),
    by simp [check_has_name],
    hfind "sex" _ (by simp [sixCols, List.lookup]),
    by simp [get_sex],
    hfind "neutered" _ (by simp [sixCols, List.lookup]),
    by simp [get_neutered],
    hfind "hair_type" _ (by simp [sixCols, List.lookup]),
    by simp [get_hair_type],
    hfind "days_upon_outcome" _ (by simp [sixCols, List.lookup]),
    compute_days_length g d hcd⟩

/-- A small concrete conforming frame. -/
def dfEx : Frame :=
  [("animal_type", Column.strs ["Dog"]),
    ("name", Column.strs ["Rex"]),
    ("sex_upon_outcome", Column.strs ["Neutered Male"]),
    ("breed", Column.strs ["Beagle Mix"]),
    ("age_upon_outcome", Column.strs ["Unknown"])]

/-- The frame `add_features` produces from `dfEx`. -/
def outEx : Frame :=
  dfEx ++
    [("is_dog", Column.bools [true]),
      ("has_name", Column.bools [true]),
      ("sex", Column.strs ["male"]),
      ("neutered", Column.strs ["fixed"]),
      ("hair_type", Column.strs ["unknown"]),
      ("days_upon_outcome", Column.nums [none])]

/-- Witness for C7 at the concrete frame `dfEx`. -/
theorem C7_frame_effect_witness :
    (∀ c ∈ colNames dfEx, outEx.lookup c = dfEx.lookup c) ∧
    colNames outEx = colNames dfEx ++ derivedNames :=
  C7_frame_effect dfEx outEx (by decide) (by decide)

/-- Witness for C8 at the concrete frame `dfEx`. -/
theorem C8_idempotent_witness :
    add_features outEx = Except.ok outEx ∧
    (∀ c ∈ colNames dfEx, outEx.lookup c = dfEx.lookup c) ∧
    (∃ a n s b g d,
      getStrCol dfEx "animal_type" = Except.ok a ∧
      getStrCol dfEx "name" = Except.ok n ∧
      getStrCol dfEx "sex_upon_outcome" = Except.ok s ∧
      getStrCol dfEx "breed" = Except.ok b ∧
      getStrCol dfEx "age_upon_outcome" = Except.ok g ∧
      compute_days_upon_outcome g = Except.ok d ∧
      outEx.lookup "is_dog" = some (Column.bools (check_is_dog a)) ∧
      (check_is_dog a).length = a.length ∧
      outEx.lookup "has_name" = some (Column.bools (check_has_name n)) ∧
      (check_has_name n).length = n.length ∧
      outEx.lookup "sex" = some (Column.strs (get_sex s)) ∧
      (get_sex s).length = s.length ∧
      outEx.lookup "neutered" = some (Column.strs (get_neutered s)) ∧
      (get_neutered s).length = s.length ∧
      outEx.lookup "hair_type" = some (Column.strs (get_hair_type b)) ∧
      (get_hair_type b).length = b.length ∧
      outEx.lookup "days_upon_outcome" = some (Column.nums d) ∧
      d.length = g.length) :=
  C8_idempotent dfEx outEx (by decide) (by decide)

/-- Witness for the amended C1 at the concrete input `"Intact Male"`. -/
theorem C1_neutered_amended_witness :
    (get_neutered_row "Intact Male" = "fixed" ∨
      get_neutered_row "Intact Male" = "intact" ∨
      get_neutered_row "Intact Male" = "unknown") ∧
    (get_neutered_row "Intact Male" = "fixed" ↔
      (strContains (strLower "Intact Male") "neutered" = true ∨
        strContains (strLower "Intact Male") "spayed" = true ∨
        strLower "Intact Male" = "fixed")) ∧
    (get_neutered_row "Intact Male" = "intact" ↔
      (strContains (strLower "Intact Male") "intact" = true ∧
        strContains (strLower "Intact Male") "neutered" = false ∧
        strContains (strLower "Intact Male") "spayed" = false)) ∧
    (get_neutered_row "Intact Male" = "unknown" ↔
      (strContains (strLower "Intact Male") "neutered" = false ∧
        strContains (strLower "Intact Male") "spayed" = false ∧
        strContains (strLower "Intact Male") "intact" = false ∧
        strLower "Intact Male" ≠ "fixed")) :=
  C1_neutered_amended "Intact Male"

/-- Witness for C3 at the concrete input `"Spayed Female"`. -/
theorem C3_sex_classification_witness :
    (get_sex_row "Spayed Female" = "female" ∨
      get_sex_row "Spayed Female" = "male" ∨
      get_sex_row "Spayed Female" = "unknown") ∧
    (get_sex_row "Spayed Female" = "female" ↔
      strEndsWith "Spayed Female" "Female" = true) ∧
    (get_sex_row "Spayed Female" = "male" ↔
      (strEndsWith "Spayed Female" "Male" = true ∧
        strEndsWith "Spayed Female" "Female" = false)) ∧
    (get_sex_row "Spayed Female" = "unknown" ↔
      (strEndsWith "Spayed Female" "Female" = false ∧
        strEndsWith "Spayed Female" "Male" = false)) ∧
    get_sex ["Spayed Female", "Neutered Male", "Unknown"] =
      ["female", "male", "unknown"] :=
  C3_sex_classification "Spayed Female"

/-- Witness for C4 at the concrete input `"Domestic Shorthair Mix"`. -/
theorem C4_hair_type_witness :
    (get_hair_type_row "Domestic Shorthair Mix" = "shorthair" ↔
      strContains (strLower "Domestic Shorthair Mix") "shorthair" = true) ∧
    (get_hair_type_row "Domestic Shorthair Mix" = "medium hair" ↔
      (strContains (strLower "Domestic Shorthair Mix") "medium hair" = true ∧
        strContains (strLower "Domestic Shorthair Mix") "shorthair" =
          false)) ∧
    (get_hair_type_row "Domestic Shorthair Mix" = "longhair" ↔
      (strContains (strLower "Domestic Shorthair Mix") "longhair" = true ∧
        strContains (strLower "Domestic Shorthair Mix") "shorthair" = false ∧
        strContains (strLower "Domestic Shorthair Mix") "medium hair" =
          false)) ∧
    (get_hair_type_row "Domestic Shorthair Mix" = "unknown" ↔
      (strContains (strLower "Domestic Shorthair Mix") "shorthair" = false ∧
        strContains (strLower "Domestic Shorthair Mix") "medium hair" =
          false ∧
        strContains (strLower "Domestic Shorthair Mix") "longhair" =
          false)) ∧
    get_hair_type
        ["Domestic Shorthair Mix", "Domestic Longhair", "Beagle Mix",
          "shorthair longhair"] =
      ["shorthair", "longhair", "unknown", "shorthair"] :=
  C4_hair_type "Domestic Shorthair Mix"
